import Mathlib

/-!
# Verification of the leightbox terminal selection interface

A shallow embedding of `src/main.rs`: the layout computation (`Layout::new`),
the display-row builder (`display`), the interface state (`Interface`), the
navigation state machine (`Interface::update_pointer`), the selection toggle,
the resize handler (`Interface::refresh_layout`), the background-task snapshot
(`Interface::init_dl`) and one tick of the main event loop (`Interface::run`).

Conventions:
* Rust `u16` / `usize` / `u64` values are modelled as `Nat`.  Arithmetic that
  can overflow or underflow in the source (debug-build panic) is modelled with
  checked operations returning `Option`; `none` stands for a panic.  `as u16`
  casts wrap (`% 65536`), as in Rust.
* Rust strings are modelled as `List Char`; byte lengths (`str::len`) use the
  UTF-8 size of each character, and byte slicing (`&s[..i]`) is a checked
  operation that fails off the end of the string or off a character boundary.
* The `HashMap<String, (u64, String)>` catalog is modelled as an association
  list in the map's iteration order: within one run the map is never mutated,
  so every iteration (`data.iter()` in `display`, `data.keys()` in `init_dl`)
  visits entries in one fixed order, which the list records.
* I/O (terminal writes) is not modelled, except that indexing into
  `self.display` performed by the render helpers (`set_pointer`,
  `clear_pointer`) is kept as a checked read, since out-of-bounds indexing
  panics.
-/

set_option autoImplicit false

/-- Rust strings, as their character sequences. -/
abbrev Str := List Char

/-- The catalog `HashMap<String, (u64, String)>`, in iteration order:
`(name, (size, hash))` per entry. -/
abbrev CatData := List (Str × Nat × Str)

/-- Checked subtraction: `a - b` on an unsigned integer, `none` on underflow
(a debug-build panic in the source). -/
def sub? (a b : Nat) : Option Nat :=
  if b ≤ a then some (a - b) else none

/-- Checked `u16` addition: `none` on overflow (a debug-build panic). -/
def add16 (a b : Nat) : Option Nat :=
  if a + b < 65536 then some (a + b) else none

/-- `(w as f32 * 0.5).round() as u16` from `Layout::new`: round half away
from zero, then a saturating float-to-int cast.  Exact for `w < 2^24`, where
`w as f32` is exact. -/
def roundHalfF32 (w : Nat) : Nat := min ((w + 1) / 2) 65535

/-- `str::len` — the UTF-8 byte length of a string. -/
def utf8Len : Str → Nat
  | [] => 0
  | c :: cs => c.utf8Size + utf8Len cs

/-- `&s[..n]` — the first `n` BYTES of a string.  `none` when the string is
shorter than `n` bytes or `n` is not a character boundary (both panic in
Rust). -/
def sliceBytes : Str → Nat → Option Str
  | [], n => if n = 0 then some [] else none
  | c :: cs, n =>
    if n = 0 then some []
    else if c.utf8Size ≤ n then (sliceBytes cs (n - c.utf8Size)).map (c :: ·)
    else none

/-- `const BORDER: (u16, u16) = (10, 2)`. -/
def BORDER : Nat × Nat := (10, 2)

/-- `COL_SEPARATOR`: eight spaces. -/
def colSep : Str := List.replicate 8 ' '

/-- `struct Layout`: screen coordinates, `(col, row)` pairs. -/
structure Layout where
  header : Nat × Nat
  name : Nat × Nat
  size : Nat × Nat
  hash : Nat × Nat
  list : Nat × Nat
  footer : Nat × Nat
deriving Repr, DecidableEq

/-- `Layout::new(widths, n, w, border)`.  The terminal width
(`terminal_size().unwrap().0`, a `u16`) is passed explicitly as `termW`.
`cent = mid - round(w/2)` and `list.0 = cent - 4` are checked `u16`
subtractions; the column sums are checked `u16` additions; `none` models the
corresponding panic. -/
def Layout.new (ws : Nat × Nat × Nat) (n w termW : Nat) (border : Nat × Nat) :
    Option Layout := do
  let mid := (termW % 65536) / 2
  let cent ← sub? mid (roundHalfF32 w)
  let titleRow ← add16 border.2 3
  let listRow ← add16 border.2 5
  let sizeCol0 ← add16 cent (ws.1 % 65536)
  let sizeCol ← add16 sizeCol0 8
  let hashCol0 ← add16 sizeCol (ws.2.1 % 65536)
  let hashCol ← add16 hashCol0 8
  let listCol ← sub? cent 4
  let footRow0 ← add16 border.2 (n % 65536)
  let footRow ← add16 footRow0 7
  pure { header := (cent, border.2), name := (cent, titleRow),
         size := (sizeCol, titleRow), hash := (hashCol, titleRow),
         list := (listCol, listRow), footer := (cent, footRow) }

/-- `fn widths`: the maximum byte widths of the name column, the rendered
size column and the hash column, folded over the catalog in iteration
order. -/
def widthsOf (data : CatData) : Nat × Nat × Nat :=
  data.foldl
    (fun m e =>
      (max m.1 (utf8Len e.1),
       max m.2.1 (Nat.repr e.2.1).length,
       max m.2.2 (utf8Len e.2.2)))
    (0, 0, 0)

/-- `format!("{:width$}", name)` for a string: left-aligned, padded on the
right with spaces up to `width` characters (never truncates). -/
def padDisplay (s : Str) (width : Nat) : Str :=
  s ++ List.replicate (width - s.length) ' '

/-- `format!("{:width$}", size)` for an integer: right-aligned, padded on the
left with spaces. -/
def padNum (s : Str) (width : Nat) : Str :=
  List.replicate (width - s.length) ' ' ++ s

/-- `fn display`: one `(formattedText, selected)` row per catalog entry, in
iteration order, each initially unselected.  `&hash[..20]` is the checked
byte slice; `none` models the panic on a fingerprint shorter than 20 bytes
(or with no character boundary at byte 20). -/
def displayRows : CatData → Nat × Nat × Nat → Option (List (Str × Bool))
  | [], _ => some []
  | e :: rest, ws => do
    let h20 ← sliceBytes e.2.2 20
    let row := padDisplay e.1 ws.1 ++ colSep ++
               padNum (Nat.repr e.2.1).data ws.2.1 ++ colSep ++
               h20 ++ ['.', '.', '.']
    let tail ← displayRows rest ws
    pure ((row, false) :: tail)

/-- `enum Direction`. -/
inductive Direction where
  | up
  | down
deriving Repr, DecidableEq

/-- `struct Interface`, with `pointer : (col, row)`. -/
structure Interface where
  pointer : Nat × Nat
  data : CatData
  display : List (Str × Bool)
  widths : Nat × Nat × Nat
  lay : Layout
  n : Nat
  w : Nat
  index : Nat
deriving Repr, DecidableEq

/-- `Interface::new(data)`: derives widths and display rows, reads
`display[0].0.len()` (a panic when the catalog is empty), computes the
layout, and starts with the pointer at the list origin and `index = 0`. -/
def Interface.new (data : CatData) (termW : Nat) : Option Interface := do
  let ws := widthsOf data
  let disp ← displayRows data ws
  let n := disp.length
  let w ← (disp.get? 0).map (fun r => utf8Len r.1)
  let lay ← Layout.new ws n w termW BORDER
  pure { pointer := lay.list, data := data, display := disp, widths := ws,
         lay := lay, n := n, w := w, index := 0 }

/-- `Interface::update_pointer`: bounds-checked pointer movement.  Returns
the updated state and the `bool` the source returns (`true` iff the move was
legal).  `self.pointer.1 -= 1` / `+= 1` are checked `u16` operations and
`self.n - 1` is a checked `usize` subtraction. -/
def Interface.update_pointer (s : Interface) (d : Direction) :
    Option (Interface × Bool) :=
  match d with
  | .up =>
    if 0 < s.index ∧ s.index ≤ s.n then
      (sub? s.pointer.2 1).map
        (fun p => ({ s with pointer := (s.pointer.1, p),
                            index := s.index - 1 }, true))
    else some (s, false)
  | .down => do
    let last ← sub? s.n 1
    if s.index < last then
      (add16 s.pointer.2 1).map
        (fun p => ({ s with pointer := (s.pointer.1, p),
                            index := s.index + 1 }, true))
    else some (s, false)

/-- The space-key handler in `Interface::run`:
`self.display[self.index].1 = !self.display[self.index].1;` — a checked read
of `display[index]` (panics out of bounds), then the flag is flipped in
place. -/
def Interface.toggleSelection (s : Interface) : Option Interface :=
  (s.display.get? s.index).map
    (fun row => { s with display := s.display.set s.index (row.1, !row.2) })

/-- `Interface::refresh_layout`: recompute the layout for the new terminal
width, reset the pointer to the new list origin and `index` to 0. -/
def Interface.refresh_layout (s : Interface) (termW : Nat) :
    Option Interface :=
  (Layout.new s.widths s.n s.w termW BORDER).map
    (fun l => { s with lay := l, pointer := l.list, index := 0 })

/-- The filename snapshot in `Interface::init_dl`:
`display.iter().enumerate().filter(selected).map(|(i, _)| data.keys().nth(i).unwrap())`,
translated with an explicit running index; `keys.get? i` models the
`unwrap` panic. -/
def snapshotAux (keys : List Str) : List (Str × Bool) → Nat → Option (List Str)
  | [], _ => some []
  | r :: rs, i =>
    if r.2 then do
      let k ← keys.get? i
      let tail ← snapshotAux keys rs (i + 1)
      pure (k :: tail)
    else snapshotAux keys rs (i + 1)

/-- `Interface::init_dl`'s snapshot: the names handed to the spawned
background task. -/
def Interface.init_dl_names (s : Interface) : Option (List Str) :=
  snapshotAux (s.data.map (·.1)) s.display 0

/-- The key events the loop decodes (`q`, `j`, `k`, space, enter); `other`
is any other decoded event, which falls to the `_ => {}` arm. -/
inductive KeyEv where
  | q
  | j
  | k
  | space
  | enter
  | other
deriving Repr, DecidableEq

/-- The loop-level state of `Interface::run`: the interface, whether a
download-completion channel is outstanding (`dl_rx.is_some()`), and the list
of snapshots handed to spawned background tasks so far. -/
structure LoopState where
  iface : Interface
  dlActive : Bool
  launched : List (List Str)
deriving Repr, DecidableEq

/-- The outcome of one loop tick: continue with a new state, or leave the
loop (`break`). -/
inductive TickOut where
  | cont (s : LoopState)
  | halt (s : LoopState)
deriving Repr, DecidableEq

/-- The loop state carried by a tick outcome. -/
def TickOut.state : TickOut → LoopState
  | .cont s => s
  | .halt s => s

/-- The `match e?` key dispatch in `Interface::run`.  For `j`/`k`, after a
legal move `set_pointer` reads `display[index]` and `clear_pointer` reads
`display[index - 1]` (down) or `display[index + 1]` (up); those checked
reads are kept because they panic out of bounds.  Enter runs `init_dl`:
it snapshots the selected names, spawns the task and replaces `dl_rx`
with the new channel — unconditionally. -/
def dispatchKey (s : LoopState) : Option KeyEv → Option TickOut
  | none => some (.cont s)
  | some .q => some (.halt s)
  | some .j => do
    let pr ← s.iface.update_pointer .down
    if pr.2 then do
      let _ ← pr.1.display.get? pr.1.index
      let _ ← pr.1.display.get? (pr.1.index - 1)
      pure (.cont { s with iface := pr.1 })
    else pure (.cont { s with iface := pr.1 })
  | some .k => do
    let pr ← s.iface.update_pointer .up
    if pr.2 then do
      let _ ← pr.1.display.get? pr.1.index
      let _ ← pr.1.display.get? (pr.1.index + 1)
      pure (.cont { s with iface := pr.1 })
    else pure (.cont { s with iface := pr.1 })
  | some .space => do
    let f ← s.iface.toggleSelection
    pure (.cont { s with iface := f })
  | some .enter => do
    let names ← s.iface.init_dl_names
    pure (.cont { s with dlActive := true, launched := s.launched ++ [names] })
  | some .other => some (.cont s)

/-- One tick of the main event loop in `Interface::run`.  The stdin byte is
read first but dispatched last; `rp` is whether the resize channel has a
signal, `dc` whether the completion channel has one.  Mirroring the source:
the completion channel is polled only when no resize signal is present
(`else if`), the `break` on completion skips the key dispatch of that tick,
and after resize handling the key read in the same tick is still
dispatched. -/
def tick (s : LoopState) (rp dc : Bool) (key : Option KeyEv) (termW : Nat) :
    Option TickOut :=
  if rp then do
    let f ← s.iface.refresh_layout termW
    dispatchKey { s with iface := f } key
  else if s.dlActive ∧ dc then
    some (.halt s)
  else
    dispatchKey s key

/-- Iterated `update_pointer` calls (the value returned by each call only
gates redrawing, not the next transition). -/
def runMoves (s : Interface) : List Direction → Option Interface
  | [] => some s
  | d :: ds => (s.update_pointer d).bind (fun pr => runMoves pr.1 ds)

/-- The lock-step invariant of the spec: the pointer column is the list
origin column and the pointer row is the list origin row offset by
`selectedIndex`. -/
def PtrInv (s : Interface) : Prop :=
  s.pointer.1 = s.lay.list.1 ∧ s.pointer.2 = s.lay.list.2 + s.index

instance (s : Interface) : Decidable (PtrInv s) := by
  unfold PtrInv; infer_instance

/-- The spec's description of the Confirm snapshot: the names of all rows
whose `selected` flag is true, in display-row order (row `i`'s name being the
`i`-th catalog name in iteration order). -/
def selectedNamesSpec (s : Interface) : List Str :=
  ((((s.data.map (·.1)).zip s.display).filter (fun p => p.2.2)).map (·.1))

/-! ### Concrete fixtures used by witnesses and counterexamples -/

/-- A 20-byte fingerprint. -/
def hashA : Str := List.replicate 20 'a'

/-- Another 20-byte fingerprint. -/
def hashB : Str := List.replicate 20 'b'

/-- A two-entry catalog in iteration order. -/
def d0 : CatData := [(['a'], 1, hashA), (['b'], 2, hashB)]

/-- A throwaway layout used only as a `getD` default below. -/
def dummyLayout : Layout :=
  { header := (0, 0), name := (0, 0), size := (0, 0), hash := (0, 0),
    list := (0, 0), footer := (0, 0) }

/-- A throwaway interface used only as a `getD` default below. -/
def dummyIface : Interface :=
  { pointer := (0, 0), data := [], display := [], widths := (0, 0, 0),
    lay := dummyLayout, n := 0, w := 0, index := 0 }

/-- The interface over `d0` at terminal width 100. -/
def s0 : Interface := (Interface.new d0 100).getD dummyIface

/-- `s0` after one legal `MoveDown` (index 1, the last row). -/
def s0down : Interface := ((s0.update_pointer .down).getD (dummyIface, false)).1

/-- `s0` after toggling the selection of row 0. -/
def s0tog : Interface := (s0.toggleSelection).getD dummyIface

/-- A loop state over `s0` with a completion channel outstanding and one
task already launched. -/
def stDl : LoopState := { iface := s0, dlActive := true, launched := [[['a']]] }

/-- A loop state over `s0` with no task in flight. -/
def st0 : LoopState := { iface := s0, dlActive := false, launched := [] }

/-! ### Helper lemmas -/

theorem update_pointer_step (s : Interface) (d : Direction) (pr : Interface × Bool)
    (h2 : s.index ≤ s.n - 1) (h : s.update_pointer d = some pr) :
    pr.1.index ≤ pr.1.n - 1 ∧ pr.1.n = s.n := by
  cases d with
  | up =>
    unfold Interface.update_pointer at h
    by_cases hc : 0 < s.index ∧ s.index ≤ s.n
    · rw [if_pos hc] at h
      unfold sub? at h
      by_cases hp : 1 ≤ s.pointer.2
      · rw [if_pos hp] at h
        simp only [Option.map_some'] at h
        cases h
        constructor
        · simp; omega
        · rfl
      · rw [if_neg hp] at h
        simp at h
    · rw [if_neg hc] at h
      cases h
      exact ⟨h2, rfl⟩
  | down =>
    unfold Interface.update_pointer at h
    unfold sub? at h
    by_cases hn : 1 ≤ s.n
    · rw [if_pos hn] at h
      simp only [Option.pure_def, Option.bind_eq_bind, Option.some_bind] at h
      by_cases hc : s.index < s.n - 1
      · rw [if_pos hc] at h
        unfold add16 at h
        by_cases hp : s.pointer.2 + 1 < 65536
        · rw [if_pos hp] at h
          simp only [Option.map_some'] at h
          cases h
          constructor
          · simp; omega
          · rfl
        · rw [if_neg hp] at h
          simp at h
      · rw [if_neg hc] at h
        cases h
        exact ⟨h2, rfl⟩
    · rw [if_neg hn] at h
      simp at h

theorem set_get?_self {α : Type} (l : List α) (i : Nat) (a : α)
    (h : l.get? i = some a) : l.set i a = l := by
  apply List.ext_get?
  intro n
  by_cases hn : i = n
  · subst hn
    rw [List.get?_set_eq, h]
    rfl
  · exact List.get?_set_ne _ _ hn

/-! ### Claims -/

/-- C5: for every row count `n ≥ 1` and starting index in `[0, n-1]`, after
any finite sequence of `MoveUp`/`MoveDown` transitions (`update_pointer`
calls) that runs without panicking, `selectedIndex` remains within
`[0, n-1]` (the lower bound being automatic for `Nat`), and the row count is
untouched. -/
theorem c5_index_stays_in_bounds :
    ∀ (ds : List Direction) (s s' : Interface), 1 ≤ s.n →
      s.index ≤ s.n - 1 → runMoves s ds = some s' →
      s'.index ≤ s'.n - 1 ∧ s'.n = s.n := by
  intro ds
  induction ds with
  | nil =>
    intro s s' _ hi h
    unfold runMoves at h
    cases h
    exact ⟨hi, rfl⟩
  | cons d ds ih =>
    intro s s' hn hi h
    unfold runMoves at h
    cases hu : s.update_pointer d with
    | none => rw [hu] at h; simp at h
    | some pr =>
      rw [hu] at h
      simp only [Option.some_bind] at h
      have hstep := update_pointer_step s d pr hi hu
      have hres := ih pr.1 s' (hstep.2 ▸ hn) hstep.1 h
      exact ⟨hres.1, hstep.2 ▸ hres.2⟩

/-- C5 witness: from the two-row fixture at index 0, the move sequence
down, up, down ends at index 1 = n - 1, within bounds. -/
theorem c5_witness : s0down.index ≤ s0down.n - 1 ∧ s0down.n = s0.n :=
  c5_index_stays_in_bounds [.down, .up, .down] s0 s0down (by decide)
    (by decide) (by decide)

/-- C9: with `n ≥ 1` rows, `MoveDown` at `selectedIndex = n - 1` and
`MoveUp` at `selectedIndex = 0` return `false` from `update_pointer` and
leave the state completely unchanged. -/
theorem c9_noop_at_bounds (s : Interface) (hn : 1 ≤ s.n) :
    (s.index = s.n - 1 → s.update_pointer .down = some (s, false)) ∧
    (s.index = 0 → s.update_pointer .up = some (s, false)) := by
  constructor
  · intro hi
    unfold Interface.update_pointer sub?
    rw [if_pos hn]
    simp only [Option.pure_def, Option.bind_eq_bind, Option.some_bind]
    rw [if_neg (by omega)]
  · intro hi
    unfold Interface.update_pointer
    rw [if_neg (by omega)]

/-- C9 witness: on the two-row fixture, `MoveDown` at the last row (index 1)
and `MoveUp` at row 0 are both no-ops returning `false`. -/
theorem c9_witness :
    s0down.update_pointer .down = some (s0down, false) ∧
    s0.update_pointer .up = some (s0, false) :=
  ⟨(c9_noop_at_bounds s0down (by decide)).1 (by decide),
   (c9_noop_at_bounds s0 (by decide)).2 (by decide)⟩

/-- C8: toggling the selection twice at the same `selectedIndex` restores
the original state exactly, and one toggle changes only
`rows[selectedIndex].selected` — every other row, the index, the pointer,
the layout and the remaining fields are unchanged. -/
theorem c8_toggle_involution (s : Interface) (h : s.index < s.display.length) :
    ((s.toggleSelection).bind Interface.toggleSelection = some s) ∧
    (∀ f, s.toggleSelection = some f →
      f.index = s.index ∧ f.pointer = s.pointer ∧ f.lay = s.lay ∧
      f.data = s.data ∧ f.n = s.n ∧ f.w = s.w ∧ f.widths = s.widths ∧
      f.display.length = s.display.length ∧
      (∀ j, j ≠ s.index → f.display.get? j = s.display.get? j) ∧
      f.display.get? s.index =
        (s.display.get? s.index).map (fun r => (r.1, !r.2))) := by
  have hrow : s.display.get? s.index = some (s.display.get ⟨s.index, h⟩) :=
    List.get?_eq_get h
  constructor
  · unfold Interface.toggleSelection
    rw [hrow]
    simp only [Option.map_some', Option.some_bind]
    rw [List.get?_set_eq, hrow]
    simp only [Option.map_eq_map, Option.map_some', Bool.not_not, List.set_set,
      Prod.mk.eta]
    rw [set_get?_self s.display s.index _ hrow]
  · intro f hf
    unfold Interface.toggleSelection at hf
    rw [hrow] at hf
    simp only [Option.map_some', Option.some_inj] at hf
    subst hf
    refine ⟨rfl, rfl, rfl, rfl, rfl, rfl, rfl, ?_, ?_, ?_⟩
    · simp
    · intro j hj
      exact List.get?_set_ne _ _ (Ne.symm hj)
    · rw [List.get?_set_eq, hrow]
      rfl

/-- C8 witness: on the two-row fixture at index 0, a double toggle is the
identity, and a single toggle keeps the pointer unchanged. -/
theorem c8_witness :
    ((s0.toggleSelection).bind Interface.toggleSelection = some s0) ∧
    s0tog.pointer = s0.pointer :=
  ⟨(c8_toggle_involution s0 (by decide)).1,
   ((c8_toggle_involution s0 (by decide)).2 s0tog (by decide)).2.1⟩

theorem drop_eq_cons_split {α : Type} :
    ∀ (i : Nat) (l : List α) (a : α) (t : List α), l.drop i = a :: t →
      l.get? i = some a ∧ l.drop (i + 1) = t := by
  intro i
  induction i with
  | zero =>
    intro l a t hd
    simp only [List.drop_zero] at hd
    subst hd
    exact ⟨rfl, rfl⟩
  | succ i ih =>
    intro l a t hd
    cases l with
    | nil => simp at hd
    | cons x xs =>
      simp only [List.drop_succ_cons] at hd
      have := ih xs a t hd
      exact ⟨this.1, this.2⟩

theorem snapshotAux_eq (keys : List Str) :
    ∀ (rows : List (Str × Bool)) (tl : List Str) (i : Nat),
      keys.drop i = tl → rows.length ≤ tl.length →
      snapshotAux keys rows i =
        some (((tl.zip rows).filter (fun p => p.2.2)).map (·.1)) := by
  intro rows
  induction rows with
  | nil =>
    intro tl i _ _
    simp [snapshotAux, List.zip_nil_right]
  | cons r rs ih =>
    intro tl i hd hlen
    cases tl with
    | nil => simp at hlen
    | cons k tl' =>
      have hk := drop_eq_cons_split i keys k tl' hd
      have hlen' : rs.length ≤ tl'.length := by
        simp at hlen
        omega
      have htail := ih tl' (i + 1) hk.2 hlen'
      by_cases hr : r.2 = true
      · simp only [snapshotAux, hr, if_pos, hk.1, Option.some_bind, htail,
          List.zip_cons_cons, List.filter_cons]
        simp [hr]
      · simp only [snapshotAux, Option.some_bind, List.zip_cons_cons,
          List.filter_cons]
        rw [if_neg (by simp [hr]), htail]
        simp [hr]

/-- C4: when `Confirm` is dispatched, the snapshot `init_dl` hands to the
background task is exactly the names of the rows whose `selected` flag is
true, in display-row order — row `i`'s name being the `i`-th catalog key in
iteration order — for every selection pattern (any flags on `display`),
whenever the row and catalog counts agree (as they do for every interface
built by `Interface::new`). -/
theorem c4_snapshot_is_selected_names (s : Interface)
    (h : s.display.length = s.data.length) :
    s.init_dl_names = some (selectedNamesSpec s) := by
  unfold Interface.init_dl_names selectedNamesSpec
  exact snapshotAux_eq (s.data.map (·.1)) s.display (s.data.map (·.1)) 0
    (List.drop_zero _) (by simp [h])

/-- C4 witness: on the fixture with row 0 selected, the snapshot is exactly
`["a"]`, the selected row's name. -/
theorem c4_witness :
    s0tog.init_dl_names = some (selectedNamesSpec s0tog) ∧
    s0tog.init_dl_names = some [['a']] :=
  ⟨c4_snapshot_is_selected_names s0tog (by decide), by decide⟩

theorem sliceBytes_of_split :
    ∀ (p q : Str), sliceBytes (p ++ q) (utf8Len p) = some p := by
  intro p
  induction p with
  | nil =>
    intro q
    cases q <;> simp [sliceBytes, utf8Len]
  | cons c cs ih =>
    intro q
    have hc : 0 < c.utf8Size := Char.utf8Size_pos c
    have hne : ¬ (c.utf8Size + utf8Len cs = 0) := by omega
    simp only [List.cons_append, sliceBytes, utf8Len, if_neg hne,
      if_pos (Nat.le_add_right c.utf8Size (utf8Len cs)),
      Nat.add_sub_cancel_left, List.append_eq, ih q, Option.map_some']

/-- C10: the display-row builder slices the first 20 bytes of each
fingerprint (`&hash[..20]`): it is total whenever every fingerprint splits
as a prefix of exactly 20 bytes followed by a remainder (i.e. is at least 20
bytes long with a character boundary at byte 20), and on a catalog holding a
shorter fingerprint the slice is out of bounds (the builder panics, modelled
as `none`). -/
theorem c10_display_needs_20_byte_hashes :
    (∀ (d : CatData) (ws : Nat × Nat × Nat),
        (∀ e ∈ d, ∃ p q, e.2.2 = p ++ q ∧ utf8Len p = 20) →
        (displayRows d ws).isSome) ∧
    displayRows [(['a'], 1, ['s', 'h', 'o', 'r', 't'])]
      (widthsOf [(['a'], 1, ['s', 'h', 'o', 'r', 't'])]) = none := by
  constructor
  · intro d ws hall
    induction d with
    | nil => simp [displayRows]
    | cons e rest ih =>
      obtain ⟨p, q, hsplit, hlen⟩ := hall e (List.mem_cons_self e rest)
      have hhead : sliceBytes e.2.2 20 = some p := by
        rw [hsplit, ← hlen]
        exact sliceBytes_of_split p q
      have htail := ih (fun e' he' => hall e' (List.mem_cons_of_mem e he'))
      obtain ⟨t, ht⟩ := Option.isSome_iff_exists.mp htail
      simp [displayRows, hhead, ht]
  · decide

/-- C10 witness: the fixture catalog's 20-byte fingerprints satisfy the
precondition, so its display rows build successfully. -/
theorem c10_witness : (displayRows d0 (widthsOf d0)).isSome :=
  c10_display_needs_20_byte_hashes.1 d0 (widthsOf d0) (by
    intro e he
    cases he with
    | head =>
      exact ⟨hashA, [], by simp [hashA], by decide⟩
    | tail _ h2 =>
      cases h2 with
      | head => exact ⟨hashB, [], by simp [hashB], by decide⟩
      | tail _ h3 => cases h3)

theorem bind_if_some {α β : Type} (c : Prop) [Decidable c] (x : α)
    (f : α → Option β) :
    ((if c then some x else none) >>= f) = if c then f x else none := by
  split <;> rfl

/-- C2 counterexample: at terminal width 10 (narrower than the 41-byte row
width of the two-row fixture), `Layout::new` does not return any error
value — the `u16` subtraction `mid - round(w/2)` underflows, a panic
(modelled as `none`), refuting "returns a distinct layout-infeasible error
value to the caller and does not panic". -/
theorem c2_counterexample : Layout.new (1, 1, 20) 2 41 10 BORDER = none := by
  decide

/-- C2 amended: `Layout::new` has no error return at all.  When half the
terminal width is below the rounded half row width (or centering leaves
fewer than 4 columns), the unchecked `u16` subtraction underflows — a
debug-build panic, not an error value.  Whenever the centering subtractions
succeed with at least 4 columns to spare and the column and footer sums fit
in `u16`, it returns a `Layout` value. -/
theorem c2_amended_layout_total_when_wide (ws : Nat × Nat × Nat)
    (n w termW : Nat)
    (h1 : roundHalfF32 w ≤ termW % 65536 / 2)
    (h2 : 4 ≤ termW % 65536 / 2 - roundHalfF32 w)
    (h3 : termW % 65536 / 2 - roundHalfF32 w + ws.1 % 65536 + 8 +
          ws.2.1 % 65536 + 8 < 65536)
    (h4 : n % 65536 + 9 < 65536) :
    (Layout.new ws n w termW BORDER).isSome := by
  unfold Layout.new sub? add16 BORDER
  simp only [bind_if_some]
  split_ifs <;> first | rfl | omega

/-- C2 witness: at terminal width 100 the fixture's layout is produced. -/
theorem c2_witness : (Layout.new (1, 1, 20) 2 41 100 BORDER).isSome :=
  c2_amended_layout_total_when_wide (1, 1, 20) 2 41 100 (by decide)
    (by decide) (by decide) (by decide)

/-- C1 counterexample: in a loop state whose completion channel is
outstanding (`dlActive = true`, one task already launched), a tick with a
further enter keypress launches a SECOND task — the launch count rises to 2
and the loop continues — refuting "the event loop never launches a second
task in response to a further enter keypress". -/
theorem c1_counterexample :
    (tick stDl false false (some KeyEv.enter) 100).map
      (fun o => (o.state.launched.length, o.state.dlActive)) =
    some (2, true) := by
  decide

/-- C1 amended: `Confirm` is NOT guarded: while a completion channel is
outstanding, a further enter keypress launches another background task with
the current snapshot and replaces the outstanding channel by the new task's;
and (as the claim also says) keypress handling in such a tick behaves
exactly as normal, so navigation and toggle keys keep working until a
completion signal arrives. -/
theorem c1_amended_reconfirm_relaunches (s : LoopState) (tw : Nat)
    (ns : List Str) (_hdl : s.dlActive = true)
    (hsnap : s.iface.init_dl_names = some ns) :
    tick s false false (some KeyEv.enter) tw =
      some (.cont { s with dlActive := true,
                           launched := s.launched ++ [ns] }) ∧
    (∀ k : Option KeyEv, tick s false false k tw = dispatchKey s k) := by
  constructor
  · simp [tick, dispatchKey, hsnap]
  · intro k
    simp [tick]

/-- C1 witness: on the fixture loop state with a task in flight, enter
relaunches (appending the empty snapshot: no row is selected) and a `j`
keypress dispatches normally. -/
theorem c1_witness :
    tick stDl false false (some KeyEv.enter) 100 =
      some (.cont { stDl with dlActive := true,
                              launched := stDl.launched ++ [[]] }) ∧
    tick stDl false false (some KeyEv.j) 100 =
      dispatchKey stDl (some KeyEv.j) :=
  ⟨(c1_amended_reconfirm_relaunches stDl 100 [] rfl (by decide)).1,
   (c1_amended_reconfirm_relaunches stDl 100 [] rfl (by decide)).2
     (some KeyEv.j)⟩

/-- C3 counterexample: a keystroke read in a tick in which a resize signal
produced work is still dispatched: from the fixture, a tick with a pending
resize and the key `j` ends at index 1 (the resize reset the index to 0,
then the key moved it down), whereas the same resize tick without a key
ends at index 0 — refuting "a keystroke is dispatched only when neither a
resize signal nor a completion signal produced work in that same tick". -/
theorem c3_counterexample :
    (tick st0 true false (some KeyEv.j) 100).map
      (fun o => o.state.iface.index) = some 1 ∧
    (tick st0 true false none 100).map
      (fun o => o.state.iface.index) = some 0 := by
  decide

/-- C3 amended: the sources are polled in the fixed order
resize > completion > keypress: a tick with a resize signal never consumes
the completion signal (its outcome is independent of it), and absent a
resize a pending completion terminates the loop before any keystroke is
dispatched; but a keystroke read in a tick in which a resize was handled is
still dispatched, after the relayout. -/
theorem c3_amended_poll_order (s : LoopState) (tw : Nat) (k : Option KeyEv)
    (dc dc' : Bool) (hdl : s.dlActive = true) :
    tick s true dc k tw = tick s true dc' k tw ∧
    tick s false true k tw = some (.halt s) := by
  refine ⟨rfl, ?_⟩
  simp [tick, hdl]

/-- C3 witness: on the fixture loop state with a task in flight, a resize
tick's outcome ignores the completion flag, and a completion tick halts
before the `q` key is handled. -/
theorem c3_witness :
    tick stDl true true (some KeyEv.q) 100 =
      tick stDl true false (some KeyEv.q) 100 ∧
    tick stDl false true (some KeyEv.q) 100 = some (.halt stDl) :=
  c3_amended_poll_order stDl 100 (some KeyEv.q) true false rfl

/-- C7: handling a resize event (a tick with the resize signal set, here
with no key pending) resets `selectedIndex` to 0 and the pointer to the NEW
layout's list origin, replaces the `Layout` wholesale with the freshly
computed one, and leaves the display rows — their text, order and
`selected` flags — and every other data field unchanged. -/
theorem c7_resize_resets (s : LoopState) (dc : Bool) (tw : Nat)
    (f : Interface) (h : s.iface.refresh_layout tw = some f) :
    tick s true dc none tw = some (.cont { s with iface := f }) ∧
    f.index = 0 ∧ f.pointer = f.lay.list ∧
    Layout.new s.iface.widths s.iface.n s.iface.w tw BORDER = some f.lay ∧
    f.display = s.iface.display ∧ f.data = s.iface.data ∧
    f.n = s.iface.n ∧ f.w = s.iface.w ∧ f.widths = s.iface.widths := by
  unfold Interface.refresh_layout at h
  cases hl : Layout.new s.iface.widths s.iface.n s.iface.w tw BORDER with
  | none =>
    rw [hl] at h
    simp at h
  | some l =>
    rw [hl] at h
    simp only [Option.map_some', Option.some_inj] at h
    subst h
    refine ⟨?_, rfl, rfl, ?_, rfl, rfl, rfl, rfl, rfl⟩
    · simp [tick, Interface.refresh_layout, hl, dispatchKey]
    · rfl

/-- C7 witness: on the fixture (already at index 0 with the width-100
layout) the resize tick at width 100 reproduces the same interface, and all
the reset/preservation equations hold concretely. -/
theorem c7_witness :
    tick st0 true false none 100 = some (.cont { st0 with iface := s0 }) ∧
    s0.index = 0 ∧ s0.pointer = s0.lay.list :=
  ⟨(c7_resize_resets st0 false 100 s0 (by decide)).1,
   (c7_resize_resets st0 false 100 s0 (by decide)).2.1,
   (c7_resize_resets st0 false 100 s0 (by decide)).2.2.1⟩

theorem ptrInv_new (dat : CatData) (tw : Nat) (f : Interface)
    (h : Interface.new dat tw = some f) : PtrInv f := by
  simp only [Interface.new, Option.pure_def, Option.bind_eq_bind] at h
  cases hd : displayRows dat (widthsOf dat) with
  | none => rw [hd] at h; simp at h
  | some disp =>
    rw [hd] at h
    simp only [Option.pure_def, Option.bind_eq_bind, Option.some_bind] at h
    cases hg : disp.get? 0 with
    | none => rw [hg] at h; simp at h
    | some r =>
      rw [hg] at h
      simp only [Option.map_some', Option.some_bind] at h
      cases hl : Layout.new (widthsOf dat) disp.length (utf8Len r.1) tw
          BORDER with
      | none => rw [hl] at h; simp at h
      | some l =>
        rw [hl] at h
        simp only [Option.some_bind, Option.some_inj] at h
        subst h
        exact ⟨rfl, (Nat.add_zero _).symm⟩

theorem ptrInv_update (s : Interface) (d : Direction) (pr : Interface × Bool)
    (hI : PtrInv s) (h : s.update_pointer d = some pr) : PtrInv pr.1 := by
  obtain ⟨h1, h2⟩ := hI
  cases d with
  | up =>
    unfold Interface.update_pointer at h
    by_cases hc : 0 < s.index ∧ s.index ≤ s.n
    · rw [if_pos hc] at h
      unfold sub? at h
      by_cases hp : 1 ≤ s.pointer.2
      · rw [if_pos hp] at h
        simp only [Option.map_some', Option.some_inj] at h
        subst h
        refine ⟨h1, ?_⟩
        show s.pointer.2 - 1 = s.lay.list.2 + (s.index - 1)
        omega
      · rw [if_neg hp] at h
        simp at h
    · rw [if_neg hc] at h
      cases h
      exact ⟨h1, h2⟩
  | down =>
    unfold Interface.update_pointer at h
    unfold sub? at h
    by_cases hn : 1 ≤ s.n
    · rw [if_pos hn] at h
      simp only [Option.pure_def, Option.bind_eq_bind, Option.some_bind] at h
      by_cases hc : s.index < s.n - 1
      · rw [if_pos hc] at h
        unfold add16 at h
        by_cases hp : s.pointer.2 + 1 < 65536
        · rw [if_pos hp] at h
          simp only [Option.map_some', Option.some_inj] at h
          subst h
          refine ⟨h1, ?_⟩
          show s.pointer.2 + 1 = s.lay.list.2 + (s.index + 1)
          omega
        · rw [if_neg hp] at h
          simp at h
      · rw [if_neg hc] at h
        cases h
        exact ⟨h1, h2⟩
    · rw [if_neg hn] at h
      simp at h

theorem ptrInv_toggle (s f : Interface) (hI : PtrInv s)
    (h : s.toggleSelection = some f) : PtrInv f := by
  unfold Interface.toggleSelection at h
  cases hg : s.display.get? s.index with
  | none => rw [hg] at h; simp at h
  | some r =>
    rw [hg] at h
    simp only [Option.map_some', Option.some_inj] at h
    subst h
    exact hI

theorem ptrInv_refresh (s : Interface) (tw : Nat) (f : Interface)
    (h : s.refresh_layout tw = some f) : PtrInv f := by
  unfold Interface.refresh_layout at h
  cases hl : Layout.new s.widths s.n s.w tw BORDER with
  | none => rw [hl] at h; simp at h
  | some l =>
    rw [hl] at h
    simp only [Option.map_some', Option.some_inj] at h
    subst h
    exact ⟨rfl, (Nat.add_zero _).symm⟩

/-- C6: the lock-step invariant — pointer = (list-origin column,
list-origin row + selectedIndex) — holds for the freshly constructed
interface, and is preserved by every operation that touches the pointer or
the index: `MoveUp`/`MoveDown` (`update_pointer`), `ToggleSelection`, and
the resize-triggered `refresh_layout` (which re-establishes it at the new
layout's origin with index 0). -/
theorem c6_lockstep_invariant (dat : CatData) (tw tw' : Nat)
    (f0 s f' f'' : Interface) (dir : Direction) (pr : Interface × Bool) :
    (Interface.new dat tw = some f0 → PtrInv f0) ∧
    (PtrInv s → s.update_pointer dir = some pr → PtrInv pr.1) ∧
    (PtrInv s → s.toggleSelection = some f' → PtrInv f') ∧
    (s.refresh_layout tw' = some f'' → PtrInv f'') :=
  ⟨ptrInv_new dat tw f0, ptrInv_update s dir pr, ptrInv_toggle s f',
   ptrInv_refresh s tw' f''⟩

/-- C6 witness: on the fixture, the invariant holds after construction,
after a `MoveDown`, after a toggle, and after a resize relayout. -/
theorem c6_witness : PtrInv s0 ∧ PtrInv s0down ∧ PtrInv s0tog ∧ PtrInv s0 :=
  ⟨(c6_lockstep_invariant d0 100 100 s0 s0 s0tog s0 .down (s0down, true)).1
     (by decide),
   (c6_lockstep_invariant d0 100 100 s0 s0 s0tog s0 .down
     (s0down, true)).2.1 (by decide) (by decide),
   (c6_lockstep_invariant d0 100 100 s0 s0 s0tog s0 .down
     (s0down, true)).2.2.1 (by decide) (by decide),
   (c6_lockstep_invariant d0 100 100 s0 s0 s0tog s0 .down
     (s0down, true)).2.2.2 (by decide)⟩
